import Mathlib

/-!
Shallow embedding of `src/src/Falcon.cpp` (Millennium Falcon LED driver).

Conventions of the embedding:
* C `int` / `unsigned long` arithmetic is modelled with unbounded `ℤ`
  (the spec's clock contract says wraparound may be ignored for practical
  run lengths, and all brightness/period values are small).
* C `double` arithmetic is modelled with `ℝ`; the C `int(...)` cast
  (truncation toward zero) is `cTrunc`.  Lean's division-by-zero
  convention (`x / 0 = 0`) only matters for parameter values
  (`period = 0`, `period = 1` in sinusoid mode) at which the C program
  would be undefined; theorems carry hypotheses ruling those out.
* `analogWrite` is modelled by returning an `Option ℤ` (the written
  brightness, if a write happens) next to the new channel state.
* The Arduino core's `random(howbig)` / `random(howsmall, howbig)`
  (external collaborators, not part of this repository) are modelled by
  `arduinoRandom1` / `arduinoRandom2`, applied to an abstract raw draw
  `r` standing for the nonnegative value of the underlying `random()`.
* `millis()` is passed in explicitly as the `now` argument of each
  operation that reads the clock.
-/

/-- Arduino core `long random(long howbig)`: returns `0` when `howbig == 0`,
otherwise `random() % howbig` where `r` is the raw `random()` value. -/
def arduinoRandom1 (r howbig : ℤ) : ℤ :=
  if howbig = 0 then 0 else Int.tmod r howbig

/-- Arduino core `long random(long howsmall, long howbig)`:
`howsmall` when the range is empty, else `random(howbig - howsmall) + howsmall`. -/
def arduinoRandom2 (r howsmall howbig : ℤ) : ℤ :=
  if howbig ≤ howsmall then howsmall else arduinoRandom1 r (howbig - howsmall) + howsmall

/-- The C cast `int(x)` from `double`: truncation toward zero. -/
noncomputable def cTrunc (x : ℝ) : ℤ :=
  if 0 ≤ x then ⌊x⌋ else -⌊-x⌋

/-- `enum class LedMode` from `Falcon.cpp`. -/
inductive LedMode
  | on
  | off
  | ramp
  | sinusoid
  | flicker
deriving DecidableEq, Repr

/-- The data members of `class Led` from `Falcon.cpp`, with its in-class
initializers as default field values. -/
structure Led where
  pin : ℤ
  period : ℤ := 1000
  phase : ℤ := 0
  delay : ℤ := 0
  mode : LedMode := LedMode.sinusoid
  minBright : ℤ := 0
  maxBright : ℤ := 255
  startTime : ℤ := 0
  lastValue : ℤ := 0
deriving DecidableEq, Repr

/-- The `switch (mode)` block of `Led::update`: the raw per-mode value
before transition smoothing.  `delta` is `now - startTime - delay`;
`r` is the raw random draw consumed in flicker mode. -/
noncomputable def Led.rawValue (st : Led) (delta r : ℤ) : ℤ :=
  match st.mode with
  | LedMode.off => 0
  | LedMode.on => st.maxBright
  | LedMode.ramp =>
      st.minBright + cTrunc (((st.maxBright : ℝ) - (st.minBright : ℝ)) *
        (((min st.period delta : ℤ) : ℝ) / (st.period : ℝ)))
  | LedMode.sinusoid =>
      st.minBright + cTrunc (((st.maxBright : ℝ) - (st.minBright : ℝ)) *
        ((Real.cos (2 * Real.pi *
            (((Int.tmod (delta + st.phase) st.period : ℤ) : ℝ) / ((st.period : ℝ) - 1) - 0.5)) +
          1) / 2))
  | LedMode.flicker =>
      if Int.tmod delta 29 = 0 then arduinoRandom2 r st.minBright st.maxBright
      else st.lastValue

/-- The transition-smoothing tail of `Led::update`: within the first half
period (`factor > 0`) blend the raw value with `lastValue`. -/
noncomputable def Led.smoothValue (st : Led) (delta v : ℤ) : ℤ :=
  if 0 < ((st.period : ℝ) / 2 - (delta : ℝ)) / ((st.period : ℝ) / 2) then
    cTrunc ((((st.period : ℝ) / 2 - (delta : ℝ)) / ((st.period : ℝ) / 2)) * (st.lastValue : ℝ) +
      (1 - ((st.period : ℝ) / 2 - (delta : ℝ)) / ((st.period : ℝ) / 2)) * (v : ℝ))
  else v

/-- The brightness `Led::update(now)` computes once past the delay guard. -/
noncomputable def Led.updateValue (st : Led) (now r : ℤ) : ℤ :=
  Led.smoothValue st (now - st.startTime - st.delay)
    (Led.rawValue st (now - st.startTime - st.delay) r)

/-- `Led::update(unsigned long now)`: no-op while `delta < 0`, otherwise
store the computed value in `lastValue` and write it out when it changed. -/
noncomputable def Led.update (st : Led) (now r : ℤ) : Led × Option ℤ :=
  if now - st.startTime - st.delay < 0 then (st, none)
  else
    ({ st with lastValue := Led.updateValue st now r },
     if Led.updateValue st now r ≠ st.lastValue then some (Led.updateValue st now r)
     else none)

/-- `Led::off()`: mode off, `startTime` reset to now, emit 0 immediately. -/
def Led.off (st : Led) (now : ℤ) : Led × Option ℤ :=
  ({ st with mode := LedMode.off, startTime := now, lastValue := 0 }, some 0)

/-- `Led::on(int mx)`: mode on, `maxBright` and `lastValue` set to `mx`,
`startTime` reset to now, emit `mx` immediately. -/
def Led.on (st : Led) (mx now : ℤ) : Led × Option ℤ :=
  ({ st with mode := LedMode.on, maxBright := mx, lastValue := mx, startTime := now },
   some mx)

/-- `Led::rampTo(int mx, int pd, int d)`: `minBright` seeded from
`lastValue`, then an immediate `update(millis())`. -/
noncomputable def Led.rampTo (st : Led) (mx pd d now r : ℤ) : Led × Option ℤ :=
  Led.update
    { st with mode := LedMode.ramp, minBright := st.lastValue, maxBright := mx,
              period := pd, delay := d, startTime := now }
    now r

/-- `Led::startSinusoid(int pd, int mn, int mx, int ph)` with an immediate
`update(millis())`.  Note it does not touch `delay`. -/
noncomputable def Led.startSinusoid (st : Led) (pd mn mx ph now r : ℤ) : Led × Option ℤ :=
  Led.update
    { st with mode := LedMode.sinusoid, minBright := mn, maxBright := mx,
              period := pd, phase := ph, startTime := now }
    now r

/-- `Led::startFlicker(int mn, int mx, int d)`: sets only mode, bounds and
delay; no clock read, no immediate recompute, no write. -/
def Led.startFlicker (st : Led) (mn mx d : ℤ) : Led :=
  { st with mode := LedMode.flicker, minBright := mn, maxBright := mx, delay := d }

/-- `enum FalconState` from `Falcon.cpp`. -/
inductive FalconState
  | OnGround
  | PrepareForFlight
  | FailingStart
  | Failing
  | EmergencyShutdown
  | Restarting
  | InFlight
  | Landing
deriving DecidableEq, Repr

/-- `struct NextState` from `Falcon.cpp`. -/
structure NextState where
  timeToSwitch : ℤ
  next : FalconState
deriving DecidableEq, Repr

/-- The narrative core of `NextState nextFalconState(FalconState state)`:
the returned `NextState` and the updated global `lastStartFailed`.
The LED/engine reconfiguration side effects in each case feed no
information back into the narrative logic and are modelled separately by
the `Led` operations above; `r0` and `r1` are abstract raw draws for the
(up to two) narrative-relevant `random` calls of a case.  In the
`OnGround` case the code literally computes `random(1024 % 4)`. -/
def nextFalconState (state : FalconState) (lastStartFailed : Bool) (r0 r1 : ℤ) :
    NextState × Bool :=
  match state with
  | FalconState.OnGround =>
      let f := !lastStartFailed && (arduinoRandom1 r0 (Int.tmod 1024 4) == 0)
      (⟨arduinoRandom2 r1 5000 20000,
        if f then FalconState.FailingStart else FalconState.PrepareForFlight⟩, f)
  | FalconState.PrepareForFlight => (⟨6000, FalconState.InFlight⟩, lastStartFailed)
  | FalconState.FailingStart =>
      (⟨arduinoRandom2 r0 2000 4000, FalconState.Failing⟩, lastStartFailed)
  | FalconState.Failing =>
      (⟨arduinoRandom2 r0 1000 2000, FalconState.EmergencyShutdown⟩, lastStartFailed)
  | FalconState.EmergencyShutdown => (⟨5000, FalconState.Restarting⟩, lastStartFailed)
  | FalconState.Restarting => (⟨4000, FalconState.OnGround⟩, lastStartFailed)
  | FalconState.InFlight =>
      (⟨arduinoRandom2 r0 10000 20000, FalconState.Landing⟩, lastStartFailed)
  | FalconState.Landing => (⟨4000, FalconState.OnGround⟩, lastStartFailed)

/-- Iterate the narrative machine `n` times from a state/flag pair,
feeding each step its own pair of abstract raw draws. -/
def narrIter (draws : ℕ → ℤ × ℤ) : ℕ → FalconState × Bool → FalconState × Bool
  | 0, p => p
  | n + 1, p =>
      let q := nextFalconState p.1 p.2 (draws n).1 (draws n).2
      narrIter draws n (q.1.next, q.2)

-- Concrete channel states used by counterexamples and witnesses.

/-- A flicker channel with `minBright = maxBright = 5` (all claim-side
bounds hypotheses hold) sampled at `now = 58`. -/
def stFlickerEq : Led :=
  { pin := 0, period := 100, phase := 0, delay := 0, mode := LedMode.flicker,
    minBright := 5, maxBright := 5, startTime := 0, lastValue := 0 }

/-- A flicker channel entered from `lastValue = 40`, below its
`minBright = 64`. -/
def stFlickerLow : Led :=
  { pin := 0, period := 2, phase := 0, delay := 0, mode := LedMode.flicker,
    minBright := 64, maxBright := 128, startTime := 0, lastValue := 40 }

/-- A channel whose mode was set at time 0 (`startTime = 0`). -/
def stIdle : Led :=
  { pin := 3, period := 1000, phase := 0, delay := 0, mode := LedMode.sinusoid,
    minBright := 0, maxBright := 255, startTime := 0, lastValue := 0 }

/-- A channel still waiting out its activation delay at `now = 0`. -/
def stDelayed : Led :=
  { pin := 5, period := 1000, phase := 0, delay := 50, mode := LedMode.ramp,
    minBright := 0, maxBright := 255, startTime := 100, lastValue := 17 }

/-- A sinusoid channel (period 3) used to instantiate the sinusoid claim. -/
def stSin : Led :=
  { pin := 6, period := 3, phase := 0, delay := 0, mode := LedMode.sinusoid,
    minBright := 10, maxBright := 40, startTime := 0, lastValue := 10 }

/-- A channel with `lastValue = 0` about to receive `rampTo(100, 1000)`. -/
def stZero : Led :=
  { pin := 9, period := 2000, phase := 0, delay := 0, mode := LedMode.sinusoid,
    minBright := 10, maxBright := 40, startTime := 0, lastValue := 0 }

/-! ### Helper lemmas about the embedded definitions -/

lemma cTrunc_intCast (n : ℤ) : cTrunc (n : ℝ) = n := by
  unfold cTrunc
  split
  · exact Int.floor_intCast n
  · rw [show -(n : ℝ) = ((-n : ℤ) : ℝ) by push_cast; ring, Int.floor_intCast]; ring

lemma cTrunc_mem (lo hi : ℤ) {y : ℝ} (h1 : 0 ≤ lo) (h2 : (lo : ℝ) ≤ y) (h3 : y ≤ (hi : ℝ)) :
    lo ≤ cTrunc y ∧ cTrunc y ≤ hi := by
  have hy : (0 : ℝ) ≤ y := le_trans (by exact_mod_cast h1) h2
  rw [cTrunc, if_pos hy]
  refine ⟨Int.le_floor.mpr h2, ?_⟩
  have := Int.floor_le_floor h3
  rwa [Int.floor_intCast] at this

lemma arduinoRandom2_mem (r lo hi : ℤ) (hr : 0 ≤ r) (hlh : lo ≤ hi) :
    lo ≤ arduinoRandom2 r lo hi ∧ arduinoRandom2 r lo hi ≤ hi ∧
      (lo < hi → arduinoRandom2 r lo hi < hi) := by
  unfold arduinoRandom2 arduinoRandom1
  split
  · exact ⟨le_refl lo, hlh, by omega⟩
  · rename_i hlt
    rw [if_neg (by omega : ¬hi - lo = 0)]
    have h0 := Int.tmod_nonneg (hi - lo) hr
    have h1 := Int.tmod_lt_of_pos r (by omega : 0 < hi - lo)
    exact ⟨by omega, by omega, fun _ => by omega⟩

lemma Led.update_of_delta_neg (st : Led) (now r : ℤ)
    (h : now - st.startTime - st.delay < 0) :
    Led.update st now r = (st, none) := by
  unfold Led.update
  rw [if_pos h]

lemma Led.update_fst (st : Led) (now r : ℤ) (h : ¬ now - st.startTime - st.delay < 0) :
    (Led.update st now r).1 = { st with lastValue := Led.updateValue st now r } := by
  unfold Led.update
  rw [if_neg h]

lemma Led.update_lastValue (st : Led) (now r : ℤ)
    (h : ¬ now - st.startTime - st.delay < 0) :
    (Led.update st now r).1.lastValue = Led.updateValue st now r := by
  rw [Led.update_fst st now r h]

lemma Led.update_startTime (st : Led) (now r : ℤ) :
    (Led.update st now r).1.startTime = st.startTime := by
  unfold Led.update; split <;> rfl

lemma Led.update_mode (st : Led) (now r : ℤ) :
    (Led.update st now r).1.mode = st.mode := by
  unfold Led.update; split <;> rfl

lemma Led.update_period (st : Led) (now r : ℤ) :
    (Led.update st now r).1.period = st.period := by
  unfold Led.update; split <;> rfl

lemma Led.update_delay (st : Led) (now r : ℤ) :
    (Led.update st now r).1.delay = st.delay := by
  unfold Led.update; split <;> rfl

lemma Led.update_minBright (st : Led) (now r : ℤ) :
    (Led.update st now r).1.minBright = st.minBright := by
  unfold Led.update; split <;> rfl

lemma Led.update_maxBright (st : Led) (now r : ℤ) :
    (Led.update st now r).1.maxBright = st.maxBright := by
  unfold Led.update; split <;> rfl

lemma Led.update_snd_eq (st : Led) (now r : ℤ) (w : ℤ)
    (h : (Led.update st now r).2 = some w) :
    w = (Led.update st now r).1.lastValue := by
  unfold Led.update at *
  split at h
  · simp at h
  · rename_i hneg
    rw [if_neg hneg]
    split at h
    · simpa using h.symm
    · simp at h

lemma Led.smoothValue_of_noblend (st : Led) (Δ v : ℤ) (hp : 0 < st.period)
    (h : st.period ≤ 2 * Δ) :
    Led.smoothValue st Δ v = v := by
  unfold Led.smoothValue
  rw [if_neg]
  have hp2 : (0 : ℝ) < (st.period : ℝ) / 2 := by
    have : (0 : ℝ) < (st.period : ℝ) := by exact_mod_cast hp
    linarith
  have hnum : (st.period : ℝ) / 2 - (Δ : ℝ) ≤ 0 := by
    have : (st.period : ℝ) ≤ 2 * (Δ : ℝ) := by exact_mod_cast h
    linarith
  have := div_nonpos_of_nonpos_of_nonneg hnum (le_of_lt hp2)
  linarith

lemma Led.smoothValue_zero (st : Led) (v : ℤ) (hp : 0 < st.period) :
    Led.smoothValue st 0 v = st.lastValue := by
  unfold Led.smoothValue
  have hp2 : ((st.period : ℝ) / 2) ≠ 0 := by
    have : (0 : ℝ) < (st.period : ℝ) := by exact_mod_cast hp
    positivity
  have hfac : ((st.period : ℝ) / 2 - ((0 : ℤ) : ℝ)) / ((st.period : ℝ) / 2) = 1 := by
    push_cast
    rw [sub_zero, div_self hp2]
  rw [hfac, if_pos one_pos]
  rw [show (1 : ℝ) * (st.lastValue : ℝ) + (1 - 1) * (v : ℝ) = ((st.lastValue : ℤ) : ℝ) by
    ring]
  exact cTrunc_intCast st.lastValue

lemma Led.smoothValue_self (st : Led) (Δ : ℤ) :
    Led.smoothValue st Δ st.lastValue = st.lastValue := by
  unfold Led.smoothValue
  split
  · rw [show ((st.period : ℝ) / 2 - (Δ : ℝ)) / ((st.period : ℝ) / 2) * (st.lastValue : ℝ) +
        (1 - ((st.period : ℝ) / 2 - (Δ : ℝ)) / ((st.period : ℝ) / 2)) * (st.lastValue : ℝ) =
        ((st.lastValue : ℤ) : ℝ) by ring]
    exact cTrunc_intCast st.lastValue
  · rfl

lemma Led.smoothValue_mem {lo hi : ℤ} (st : Led) (Δ v : ℤ)
    (hlo : 0 ≤ lo) (hL1 : lo ≤ st.lastValue) (hL2 : st.lastValue ≤ hi)
    (hv1 : lo ≤ v) (hv2 : v ≤ hi) (hΔ : 0 ≤ Δ) (hp : 0 < st.period) :
    lo ≤ Led.smoothValue st Δ v ∧ Led.smoothValue st Δ v ≤ hi := by
  unfold Led.smoothValue
  split
  · rename_i hf0
    set f : ℝ := ((st.period : ℝ) / 2 - (Δ : ℝ)) / ((st.period : ℝ) / 2) with hf
    have hp2 : (0 : ℝ) < (st.period : ℝ) / 2 := by
      have : (0 : ℝ) < (st.period : ℝ) := by exact_mod_cast hp
      linarith
    have hf1 : f ≤ 1 := by
      rw [hf, div_le_one hp2]
      have : (0 : ℝ) ≤ (Δ : ℝ) := by exact_mod_cast hΔ
      linarith
    have hL1' : (lo : ℝ) ≤ (st.lastValue : ℝ) := by exact_mod_cast hL1
    have hL2' : (st.lastValue : ℝ) ≤ (hi : ℝ) := by exact_mod_cast hL2
    have hv1' : (lo : ℝ) ≤ (v : ℝ) := by exact_mod_cast hv1
    have hv2' : (v : ℝ) ≤ (hi : ℝ) := by exact_mod_cast hv2
    apply cTrunc_mem lo hi hlo
    · nlinarith
    · nlinarith
  · exact ⟨hv1, hv2⟩

lemma Led.rawValue_off (st : Led) (Δ r : ℤ) (hm : st.mode = LedMode.off) :
    Led.rawValue st Δ r = 0 := by
  unfold Led.rawValue
  rw [hm]

lemma Led.rawValue_on (st : Led) (Δ r : ℤ) (hm : st.mode = LedMode.on) :
    Led.rawValue st Δ r = st.maxBright := by
  unfold Led.rawValue
  rw [hm]

lemma Led.rawValue_flicker_hold (st : Led) (Δ r : ℤ) (hm : st.mode = LedMode.flicker)
    (ht : ¬ Int.tmod Δ 29 = 0) :
    Led.rawValue st Δ r = st.lastValue := by
  unfold Led.rawValue
  rw [hm]
  exact if_neg ht

lemma Led.rawValue_flicker_sample (st : Led) (Δ r : ℤ) (hm : st.mode = LedMode.flicker)
    (ht : Int.tmod Δ 29 = 0) :
    Led.rawValue st Δ r = arduinoRandom2 r st.minBright st.maxBright := by
  unfold Led.rawValue
  rw [hm]
  exact if_pos ht

lemma Led.rawValue_ramp_mem (st : Led) (Δ r : ℤ) (hm : st.mode = LedMode.ramp)
    (hΔ : 0 ≤ Δ) (hp : 0 < st.period) (hmm : st.minBright ≤ st.maxBright) :
    st.minBright ≤ Led.rawValue st Δ r ∧ Led.rawValue st Δ r ≤ st.maxBright := by
  simp only [Led.rawValue, hm]
  have hper : (0 : ℝ) < (st.period : ℝ) := by exact_mod_cast hp
  have hmin0 : (0 : ℝ) ≤ ((min st.period Δ : ℤ) : ℝ) := by
    exact_mod_cast le_min (le_of_lt hp) hΔ
  have hminle : ((min st.period Δ : ℤ) : ℝ) ≤ (st.period : ℝ) := by
    exact_mod_cast min_le_left st.period Δ
  have hv0 : (0 : ℝ) ≤ ((min st.period Δ : ℤ) : ℝ) / (st.period : ℝ) :=
    div_nonneg hmin0 (le_of_lt hper)
  have hv1 : ((min st.period Δ : ℤ) : ℝ) / (st.period : ℝ) ≤ 1 :=
    (div_le_one hper).mpr hminle
  have hd : (0 : ℝ) ≤ (st.maxBright : ℝ) - (st.minBright : ℝ) := by
    have : (st.minBright : ℝ) ≤ (st.maxBright : ℝ) := by exact_mod_cast hmm
    linarith
  have hmem := cTrunc_mem 0 (st.maxBright - st.minBright)
    (y := ((st.maxBright : ℝ) - (st.minBright : ℝ)) *
      (((min st.period Δ : ℤ) : ℝ) / (st.period : ℝ)))
    (le_refl 0)
    (by rw [Int.cast_zero]; exact mul_nonneg hd hv0)
    (by rw [Int.cast_sub]; exact mul_le_of_le_one_right hd hv1)
  omega

lemma Led.rawValue_sinusoid_mem (st : Led) (Δ r : ℤ) (hm : st.mode = LedMode.sinusoid)
    (hmm : st.minBright ≤ st.maxBright) :
    st.minBright ≤ Led.rawValue st Δ r ∧ Led.rawValue st Δ r ≤ st.maxBright := by
  simp only [Led.rawValue, hm]
  have hc1 := Real.neg_one_le_cos (2 * Real.pi *
    (((Int.tmod (Δ + st.phase) st.period : ℤ) : ℝ) / ((st.period : ℝ) - 1) - 0.5))
  have hc2 := Real.cos_le_one (2 * Real.pi *
    (((Int.tmod (Δ + st.phase) st.period : ℤ) : ℝ) / ((st.period : ℝ) - 1) - 0.5))
  have hd : (0 : ℝ) ≤ (st.maxBright : ℝ) - (st.minBright : ℝ) := by
    have : (st.minBright : ℝ) ≤ (st.maxBright : ℝ) := by exact_mod_cast hmm
    linarith
  have hv0 : (0 : ℝ) ≤ ((Real.cos (2 * Real.pi *
      (((Int.tmod (Δ + st.phase) st.period : ℤ) : ℝ) / ((st.period : ℝ) - 1) - 0.5)) + 1) / 2) := by
    linarith
  have hv1 : ((Real.cos (2 * Real.pi *
      (((Int.tmod (Δ + st.phase) st.period : ℤ) : ℝ) / ((st.period : ℝ) - 1) - 0.5)) + 1) / 2) ≤ 1 := by
    linarith
  have hmem := cTrunc_mem 0 (st.maxBright - st.minBright)
    (y := ((st.maxBright : ℝ) - (st.minBright : ℝ)) *
      ((Real.cos (2 * Real.pi *
          (((Int.tmod (Δ + st.phase) st.period : ℤ) : ℝ) / ((st.period : ℝ) - 1) - 0.5)) +
        1) / 2))
    (le_refl 0)
    (by rw [Int.cast_zero]; exact mul_nonneg hd hv0)
    (by rw [Int.cast_sub]; exact mul_le_of_le_one_right hd hv1)
  omega

lemma Led.rawValue_mem_255 (st : Led) (Δ r : ℤ)
    (hm0 : 0 ≤ st.minBright) (hmm : st.minBright ≤ st.maxBright) (hM : st.maxBright ≤ 255)
    (hL0 : 0 ≤ st.lastValue) (hL1 : st.lastValue ≤ 255)
    (hp : 0 < st.period) (hr : 0 ≤ r) (hΔ : 0 ≤ Δ) :
    0 ≤ Led.rawValue st Δ r ∧ Led.rawValue st Δ r ≤ 255 := by
  cases hmode : st.mode
  · rw [Led.rawValue_on st Δ r hmode]; omega
  · rw [Led.rawValue_off st Δ r hmode]; omega
  · have := Led.rawValue_ramp_mem st Δ r hmode hΔ hp hmm
    omega
  · have := Led.rawValue_sinusoid_mem st Δ r hmode hmm
    omega
  · by_cases ht : Int.tmod Δ 29 = 0
    · rw [Led.rawValue_flicker_sample st Δ r hmode ht]
      have := arduinoRandom2_mem r st.minBright st.maxBright hr hmm
      omega
    · rw [Led.rawValue_flicker_hold st Δ r hmode ht]
      omega

lemma Led.update_at_start (st : Led) (r : ℤ) (hp : 0 < st.period) (hd : 0 ≤ st.delay) :
    (Led.update st st.startTime r).1.lastValue = st.lastValue := by
  rcases lt_or_eq_of_le hd with h | h
  · rw [Led.update_of_delta_neg st st.startTime r (by omega)]
  · rw [Led.update_lastValue st st.startTime r (by omega)]
    unfold Led.updateValue
    rw [show st.startTime - st.startTime - st.delay = 0 by omega]
    exact Led.smoothValue_zero st _ hp

lemma Led.ramp_update_complete (st : Led) (now r : ℤ) (hm : st.mode = LedMode.ramp)
    (hp : 0 < st.period) (hge : st.period ≤ now - st.startTime - st.delay) :
    (Led.update st now r).1.lastValue = st.maxBright := by
  rw [Led.update_lastValue st now r (by omega)]
  unfold Led.updateValue
  rw [Led.smoothValue_of_noblend st _ _ hp (by omega)]
  simp only [Led.rawValue, hm]
  have hper : ((st.period : ℝ)) ≠ 0 := by
    have : (0 : ℝ) < (st.period : ℝ) := by exact_mod_cast hp
    exact ne_of_gt this
  rw [min_eq_left hge, div_self hper, mul_one]
  rw [show (st.maxBright : ℝ) - (st.minBright : ℝ) = ((st.maxBright - st.minBright : ℤ) : ℝ) by
    push_cast; ring]
  rw [cTrunc_intCast]
  omega

lemma tmod_add_right_of_nonneg {a b : ℤ} (ha : 0 ≤ a) (hb : 0 < b) :
    Int.tmod (a + b) b = Int.tmod a b := by
  rw [Int.tmod_eq_emod (by omega) (by omega), Int.tmod_eq_emod ha (le_of_lt hb)]
  rw [show a + b = a + 1 * b by ring]
  exact Int.add_mul_emod_self

/-! ### Claim theorems -/

lemma tmod_1024_4 : Int.tmod 1024 4 = 0 := by decide

lemma onGround_eq (flag : Bool) (r0 r1 : ℤ) :
    nextFalconState FalconState.OnGround flag r0 r1 =
      (⟨arduinoRandom2 r1 5000 20000,
        if !flag then FalconState.FailingStart else FalconState.PrepareForFlight⟩, !flag) := by
  simp [nextFalconState, arduinoRandom1, tmod_1024_4]

/-- C1: the claim says the `OnGround` transition sets `lastStartFailed` with
probability 1/4 (a uniform draw over a 4-element range being 0) and that for
some draws the flag stays false and `PrepareForFlight` is returned.  The code
computes `random(1024 % 4)`, i.e. `random(0)`, which the Arduino core defines
to be `0` for every raw draw, so with `lastStartFailed = false` the flag is
always set and `FailingStart` is always returned: here evaluated at raw draws
1, 2 and 3, which per the claim (residues 1, 2, 3 in a 4-element range) should
have produced `PrepareForFlight`. -/
theorem onGround_failure_branch_deterministic :
    ((nextFalconState FalconState.OnGround false 1 0).1.next = FalconState.FailingStart ∧
      (nextFalconState FalconState.OnGround false 1 0).2 = true) ∧
    (nextFalconState FalconState.OnGround false 2 0).1.next = FalconState.FailingStart ∧
    (nextFalconState FalconState.OnGround false 3 0).1.next = FalconState.FailingStart := by
  decide

/-- C2: if the `OnGround` transition returns `FailingStart`, the next
`OnGround` transition (with the flag it produced) cannot return
`FailingStart` again, and no other narrative state alters the flag in
between. -/
theorem onGround_no_consecutive_failingStart (flag : Bool) (r0 r1 r0' r1' : ℤ)
    (h : (nextFalconState FalconState.OnGround flag r0 r1).1.next = FalconState.FailingStart) :
    (nextFalconState FalconState.OnGround
        (nextFalconState FalconState.OnGround flag r0 r1).2 r0' r1').1.next ≠
      FalconState.FailingStart ∧
    (∀ s : FalconState, s ≠ FalconState.OnGround →
      (nextFalconState s (nextFalconState FalconState.OnGround flag r0 r1).2 r0' r1').2 =
        (nextFalconState FalconState.OnGround flag r0 r1).2) := by
  constructor
  · rw [onGround_eq] at h ⊢
    cases flag with
    | false => simp [onGround_eq]
    | true => simp at h
  · intro s hs
    cases s <;> simp_all [nextFalconState]

/-- C2 witness: from `lastStartFailed = false` the first `OnGround`
transition does return `FailingStart`, and the following one does not. -/
theorem onGround_no_consecutive_failingStart_witness :
    (nextFalconState FalconState.OnGround false 0 0).1.next = FalconState.FailingStart ∧
    (nextFalconState FalconState.OnGround
        (nextFalconState FalconState.OnGround false 0 0).2 0 0).1.next ≠
      FalconState.FailingStart :=
  ⟨by decide, (onGround_no_consecutive_failingStart false 0 0 0 0 (by decide)).1⟩

/-- C10: from every narrative state, for every flag value and every sequence
of raw random draws, iterating `nextFalconState` reaches `OnGround` within at
most 5 transitions. -/
theorem narrative_returns_to_ground (draws : ℕ → ℤ × ℤ) (s : FalconState) (flag : Bool) :
    ∃ k, k ≤ 5 ∧ (narrIter draws k (s, flag)).1 = FalconState.OnGround := by
  cases s <;> cases flag
  case OnGround.false =>
    exact ⟨5, by norm_num, by simp [narrIter, nextFalconState, arduinoRandom1, tmod_1024_4]⟩
  case OnGround.true =>
    exact ⟨4, by norm_num, by simp [narrIter, nextFalconState, arduinoRandom1, tmod_1024_4]⟩
  case PrepareForFlight.false =>
    exact ⟨3, by norm_num, by simp [narrIter, nextFalconState]⟩
  case PrepareForFlight.true =>
    exact ⟨3, by norm_num, by simp [narrIter, nextFalconState]⟩
  case FailingStart.false =>
    exact ⟨4, by norm_num, by simp [narrIter, nextFalconState]⟩
  case FailingStart.true =>
    exact ⟨4, by norm_num, by simp [narrIter, nextFalconState]⟩
  case Failing.false =>
    exact ⟨3, by norm_num, by simp [narrIter, nextFalconState]⟩
  case Failing.true =>
    exact ⟨3, by norm_num, by simp [narrIter, nextFalconState]⟩
  case EmergencyShutdown.false =>
    exact ⟨2, by norm_num, by simp [narrIter, nextFalconState]⟩
  case EmergencyShutdown.true =>
    exact ⟨2, by norm_num, by simp [narrIter, nextFalconState]⟩
  case Restarting.false =>
    exact ⟨1, by norm_num, by simp [narrIter, nextFalconState]⟩
  case Restarting.true =>
    exact ⟨1, by norm_num, by simp [narrIter, nextFalconState]⟩
  case InFlight.false =>
    exact ⟨2, by norm_num, by simp [narrIter, nextFalconState]⟩
  case InFlight.true =>
    exact ⟨2, by norm_num, by simp [narrIter, nextFalconState]⟩
  case Landing.false =>
    exact ⟨1, by norm_num, by simp [narrIter, nextFalconState]⟩
  case Landing.true =>
    exact ⟨1, by norm_num, by simp [narrIter, nextFalconState]⟩

/-- C9: when `now - startTime - delay < 0` the periodic update is a complete
no-op: the channel state (including `lastValue`) is unchanged and nothing is
written to the output pin. -/
theorem update_delay_noop (st : Led) (now r : ℤ)
    (h : now - st.startTime - st.delay < 0) :
    Led.update st now r = (st, none) :=
  Led.update_of_delta_neg st now r h

/-- C9 witness: a ramp channel whose mode was set at time 100 with delay 50,
polled at time 0. -/
theorem update_delay_noop_witness :
    (0 : ℤ) - stDelayed.startTime - stDelayed.delay < 0 ∧
      Led.update stDelayed 0 7 = (stDelayed, none) :=
  ⟨by decide, update_delay_noop stDelayed 0 7 (by decide)⟩

/-- C8 counterexample: the claim says every mode-setting operation records
the current time as `startTime`.  `startFlicker` does not: on a channel whose
`startTime` is 0, a `startFlicker` call made at time 500 leaves
`startTime = 0`. -/
theorem startFlicker_does_not_set_startTime :
    (Led.startFlicker stIdle 0 64 100).startTime = 0 ∧
    (Led.startFlicker stIdle 0 64 100).startTime ≠ 500 := by
  decide

/-- C8 (amended): `off`, `on`, `rampTo` and `startSinusoid` record the call
time as `startTime`; `startFlicker` leaves `startTime` unchanged, setting
only mode, bounds and delay. -/
theorem modeSet_startTime_anchors (st : Led) (now mx pd d mn ph r : ℤ) :
    (Led.off st now).1.startTime = now ∧
    (Led.on st mx now).1.startTime = now ∧
    (Led.rampTo st mx pd d now r).1.startTime = now ∧
    (Led.startSinusoid st pd mn mx ph now r).1.startTime = now ∧
    (Led.startFlicker st mn mx d).startTime = st.startTime ∧
    (Led.startFlicker st mn mx d).mode = LedMode.flicker ∧
    (Led.startFlicker st mn mx d).minBright = mn ∧
    (Led.startFlicker st mn mx d).maxBright = mx ∧
    (Led.startFlicker st mn mx d).delay = d := by
  refine ⟨rfl, rfl, ?_, ?_, rfl, rfl, rfl, rfl, rfl⟩
  · unfold Led.rampTo
    rw [Led.update_startTime]
  · unfold Led.startSinusoid
    rw [Led.update_startTime]

/-- C3 counterexample: the claim allows `minBright = maxBright` (it only
assumes `minBright ≤ maxBright`) yet asserts flicker sampling values lie in
the half-open interval `[minBright, maxBright)`.  With
`minBright = maxBright = 5` a sampling instant (`elapsed = 58`, past the
smoothing window) stores exactly 5, which is not `< maxBright`. -/
theorem flicker_sample_at_equal_bounds :
    (0 ≤ stFlickerEq.minBright ∧ stFlickerEq.minBright ≤ stFlickerEq.maxBright ∧
      stFlickerEq.maxBright ≤ 255 ∧ 0 ≤ stFlickerEq.lastValue ∧ stFlickerEq.lastValue ≤ 255 ∧
      0 < stFlickerEq.period ∧ stFlickerEq.mode = LedMode.flicker ∧
      Int.tmod (58 - stFlickerEq.startTime - stFlickerEq.delay) 29 = 0 ∧
      stFlickerEq.period ≤ 2 * (58 - stFlickerEq.startTime - stFlickerEq.delay)) ∧
    (Led.update stFlickerEq 58 0).1.lastValue = 5 ∧
    ¬ ((Led.update stFlickerEq 58 0).1.lastValue < stFlickerEq.maxBright) := by
  have h5 : (Led.update stFlickerEq 58 0).1.lastValue = 5 := by
    rw [Led.update_lastValue stFlickerEq 58 0 (by decide)]
    unfold Led.updateValue
    rw [Led.smoothValue_of_noblend stFlickerEq (58 - stFlickerEq.startTime - stFlickerEq.delay)
      (Led.rawValue stFlickerEq (58 - stFlickerEq.startTime - stFlickerEq.delay) 0)
      (by decide) (by decide)]
    rw [Led.rawValue_flicker_sample stFlickerEq (58 - stFlickerEq.startTime - stFlickerEq.delay) 0
      rfl (by decide)]
    decide
  exact ⟨by decide, h5, by rw [h5]; decide⟩

/-- C3 (amended): under `0 ≤ minBright ≤ maxBright ≤ 255`, `lastValue` in
`[0,255]`, positive period and a nonnegative raw draw, the stored (and, when
written, emitted) value of `update` is always in `[0,255]`; past the
smoothing window it is exactly 0 for Off, exactly `maxBright` for On, in
`[minBright, maxBright]` for Ramp and Sinusoid, and at flicker sampling
instants in `[minBright, maxBright]` — strictly below `maxBright` only when
`minBright < maxBright` (at `minBright = maxBright` the sample equals both
bounds). -/
theorem update_output_bounds (st : Led) (now r : ℤ)
    (hm0 : 0 ≤ st.minBright) (hmm : st.minBright ≤ st.maxBright) (hM : st.maxBright ≤ 255)
    (hL0 : 0 ≤ st.lastValue) (hL1 : st.lastValue ≤ 255)
    (hp : 0 < st.period) (hr : 0 ≤ r) :
    (0 ≤ (Led.update st now r).1.lastValue ∧ (Led.update st now r).1.lastValue ≤ 255) ∧
    (∀ w, (Led.update st now r).2 = some w → w = (Led.update st now r).1.lastValue) ∧
    (st.period ≤ 2 * (now - st.startTime - st.delay) →
      (st.mode = LedMode.off → (Led.update st now r).1.lastValue = 0) ∧
      (st.mode = LedMode.on → (Led.update st now r).1.lastValue = st.maxBright) ∧
      ((st.mode = LedMode.ramp ∨ st.mode = LedMode.sinusoid) →
        st.minBright ≤ (Led.update st now r).1.lastValue ∧
          (Led.update st now r).1.lastValue ≤ st.maxBright) ∧
      (st.mode = LedMode.flicker → Int.tmod (now - st.startTime - st.delay) 29 = 0 →
        st.minBright ≤ (Led.update st now r).1.lastValue ∧
          (Led.update st now r).1.lastValue ≤ st.maxBright ∧
          (st.minBright < st.maxBright → (Led.update st now r).1.lastValue < st.maxBright))) := by
  by_cases hneg : now - st.startTime - st.delay < 0
  · rw [Led.update_of_delta_neg st now r hneg]
    refine ⟨⟨hL0, hL1⟩, ?_, ?_⟩
    · intro w hw
      simp at hw
    · intro habs
      exfalso
      omega
  · have hΔ : 0 ≤ now - st.startTime - st.delay := by omega
    have hlast := Led.update_lastValue st now r hneg
    have hraw := Led.rawValue_mem_255 st (now - st.startTime - st.delay) r
      hm0 hmm hM hL0 hL1 hp hr hΔ
    have hb : 0 ≤ Led.updateValue st now r ∧ Led.updateValue st now r ≤ 255 := by
      unfold Led.updateValue
      exact Led.smoothValue_mem st _ _ (le_refl 0) hL0 hL1 hraw.1 hraw.2 hΔ hp
    refine ⟨by rw [hlast]; exact hb, fun w hw => Led.update_snd_eq st now r w hw, ?_⟩
    intro h2Δ
    have hnb : Led.updateValue st now r = Led.rawValue st (now - st.startTime - st.delay) r := by
      unfold Led.updateValue
      exact Led.smoothValue_of_noblend st _ _ hp h2Δ
    rw [hlast, hnb]
    refine ⟨?_, ?_, ?_, ?_⟩
    · intro hmo
      rw [Led.rawValue_off st _ r hmo]
    · intro hmo
      rw [Led.rawValue_on st _ r hmo]
    · intro hmo
      rcases hmo with hmo | hmo
      · exact Led.rawValue_ramp_mem st _ r hmo hΔ hp hmm
      · exact Led.rawValue_sinusoid_mem st _ r hmo hmm
    · intro hmo ht
      rw [Led.rawValue_flicker_sample st _ r hmo ht]
      have hs := arduinoRandom2_mem r st.minBright st.maxBright hr hmm
      exact ⟨hs.1, hs.2.1, hs.2.2⟩

/-- C3 witness: the amended bounds applied to the sinusoid channel `stSin`
at time 5. -/
theorem update_output_bounds_witness :
    (0 ≤ stSin.minBright ∧ stSin.minBright ≤ stSin.maxBright ∧ stSin.maxBright ≤ 255 ∧
      0 ≤ stSin.lastValue ∧ stSin.lastValue ≤ 255 ∧ 0 < stSin.period) ∧
    (0 ≤ (Led.update stSin 5 0).1.lastValue ∧ (Led.update stSin 5 0).1.lastValue ≤ 255) :=
  ⟨by decide,
   (update_output_bounds stSin 5 0 (by decide) (by decide) (by decide) (by decide)
      (by decide) (by decide) (by decide)).1⟩

/-- C4: every mode-setting operation starts from the channel's current
`lastValue`: `off` and `on` emit a value inside
`[min(lastValue, target), max(lastValue, target)]` (they jump straight to
the target, an endpoint of that interval), while `rampTo`, `startSinusoid`
(whose immediate recompute blends with factor 1 at the activation instant)
and `startFlicker` leave the emitted value exactly at the previous
`lastValue` — hence inside that interval for any target. -/
theorem modeSet_smooth_from_lastValue (st : Led) (now mx pd d mn ph r : ℤ)
    (hpd : 0 < pd) (hd : 0 ≤ d) (hdelay : 0 ≤ st.delay) :
    (min st.lastValue 0 ≤ (Led.off st now).1.lastValue ∧
      (Led.off st now).1.lastValue ≤ max st.lastValue 0) ∧
    (min st.lastValue mx ≤ (Led.on st mx now).1.lastValue ∧
      (Led.on st mx now).1.lastValue ≤ max st.lastValue mx) ∧
    (Led.rampTo st mx pd d now r).1.lastValue = st.lastValue ∧
    (Led.startSinusoid st pd mn mx ph now r).1.lastValue = st.lastValue ∧
    (Led.startFlicker st mn mx d).lastValue = st.lastValue := by
  refine ⟨⟨min_le_right _ _, le_max_right _ _⟩, ⟨min_le_right _ _, le_max_right _ _⟩,
    ?_, ?_, rfl⟩
  · unfold Led.rampTo
    exact Led.update_at_start _ r hpd hd
  · unfold Led.startSinusoid
    exact Led.update_at_start _ r hpd hdelay

/-- C4 witness: `rampTo(100, 1000)` at time 77 on the sinusoid channel
`stSin` leaves the emitted value at the previous `lastValue`. -/
theorem modeSet_smooth_from_lastValue_witness :
    ((0 : ℤ) < 1000 ∧ (0 : ℤ) ≤ 0 ∧ 0 ≤ stSin.delay) ∧
    (Led.rampTo stSin 100 1000 0 77 0).1.lastValue = stSin.lastValue :=
  ⟨by decide,
   (modeSet_smooth_from_lastValue stSin 77 100 1000 0 0 0 0
      (by decide) (by decide) (by decide)).2.2.1⟩

/-- C5: with `lastValue = 0`, `rampTo(100, 1000)` called at time `s` seeds
`minBright` from `lastValue` (so the ramp starts at 0), and the recompute at
`s + 1000` stores exactly 100, as does the recompute at `s + 2000`
(clamped at `maxBright` once `elapsed ≥ period`). -/
theorem rampTo_scenario_exact (st : Led) (s r0 r1 r2 : ℤ) (h : st.lastValue = 0) :
    (Led.rampTo st 100 1000 0 s r0).1.minBright = 0 ∧
    (Led.update (Led.rampTo st 100 1000 0 s r0).1 (s + 1000) r1).1.lastValue = 100 ∧
    (Led.update (Led.update (Led.rampTo st 100 1000 0 s r0).1 (s + 1000) r1).1
        (s + 2000) r2).1.lastValue = 100 := by
  have hmode1 : (Led.rampTo st 100 1000 0 s r0).1.mode = LedMode.ramp := by
    unfold Led.rampTo
    rw [Led.update_mode]
  have hper1 : (Led.rampTo st 100 1000 0 s r0).1.period = 1000 := by
    unfold Led.rampTo
    rw [Led.update_period]
  have hstart1 : (Led.rampTo st 100 1000 0 s r0).1.startTime = s := by
    unfold Led.rampTo
    rw [Led.update_startTime]
  have hdel1 : (Led.rampTo st 100 1000 0 s r0).1.delay = 0 := by
    unfold Led.rampTo
    rw [Led.update_delay]
  have hmax1 : (Led.rampTo st 100 1000 0 s r0).1.maxBright = 100 := by
    unfold Led.rampTo
    rw [Led.update_maxBright]
  have hmin1 : (Led.rampTo st 100 1000 0 s r0).1.minBright = 0 := by
    unfold Led.rampTo
    rw [Led.update_minBright]
    exact h
  have c2 : (Led.update (Led.rampTo st 100 1000 0 s r0).1 (s + 1000) r1).1.lastValue = 100 := by
    have := Led.ramp_update_complete (Led.rampTo st 100 1000 0 s r0).1 (s + 1000) r1
      hmode1 (by omega) (by rw [hper1, hstart1, hdel1]; omega)
    rwa [hmax1] at this
  refine ⟨hmin1, c2, ?_⟩
  have hmode2 : (Led.update (Led.rampTo st 100 1000 0 s r0).1 (s + 1000) r1).1.mode =
      LedMode.ramp := by
    rw [Led.update_mode]
    exact hmode1
  have hper2 : (Led.update (Led.rampTo st 100 1000 0 s r0).1 (s + 1000) r1).1.period = 1000 := by
    rw [Led.update_period]
    exact hper1
  have hstart2 : (Led.update (Led.rampTo st 100 1000 0 s r0).1 (s + 1000) r1).1.startTime = s := by
    rw [Led.update_startTime]
    exact hstart1
  have hdel2 : (Led.update (Led.rampTo st 100 1000 0 s r0).1 (s + 1000) r1).1.delay = 0 := by
    rw [Led.update_delay]
    exact hdel1
  have hmax2 : (Led.update (Led.rampTo st 100 1000 0 s r0).1 (s + 1000) r1).1.maxBright = 100 := by
    rw [Led.update_maxBright]
    exact hmax1
  have := Led.ramp_update_complete
    (Led.update (Led.rampTo st 100 1000 0 s r0).1 (s + 1000) r1).1 (s + 2000) r2
    hmode2 (by omega) (by rw [hper2, hstart2, hdel2]; omega)
  rwa [hmax2] at this

/-- C5 witness: the scenario run on the concrete channel `stZero`
(`lastValue = 0`) with activation time 0. -/
theorem rampTo_scenario_exact_witness :
    stZero.lastValue = 0 ∧
    (Led.update (Led.rampTo stZero 100 1000 0 0 0).1 (0 + 1000) 0).1.lastValue = 100 :=
  ⟨by decide, (rampTo_scenario_exact stZero 0 0 0 0 (by decide)).2.1⟩

/-- C6: for a sinusoid channel (period > 1), past the smoothing window:
at elapsed times where `(elapsed+phase) mod period` sits at the half-period
point (`2 * ((elapsed+phase) mod period) = period - 1`) the stored value is
exactly `maxBright`; with phase 0 at `elapsed mod period = 0` it is exactly
`minBright`; and the computed value is periodic in elapsed time with period
`period`. -/
theorem sinusoid_waveform_points (st : Led) (now r : ℤ)
    (hm : st.mode = LedMode.sinusoid) (hp : 1 < st.period) :
    (st.period ≤ 2 * (now - st.startTime - st.delay) →
      2 * Int.tmod (now - st.startTime - st.delay + st.phase) st.period = st.period - 1 →
      (Led.update st now r).1.lastValue = st.maxBright) ∧
    (st.period ≤ 2 * (now - st.startTime - st.delay) → st.phase = 0 →
      Int.tmod (now - st.startTime - st.delay) st.period = 0 →
      (Led.update st now r).1.lastValue = st.minBright) ∧
    (st.period ≤ 2 * (now - st.startTime - st.delay) →
      0 ≤ now - st.startTime - st.delay + st.phase →
      Led.updateValue st (now + st.period) r = Led.updateValue st now r) := by
  refine ⟨?_, ?_, ?_⟩
  · intro h2Δ hhalf
    rw [Led.update_lastValue st now r (by omega)]
    unfold Led.updateValue
    rw [Led.smoothValue_of_noblend st _ _ (by omega) h2Δ]
    simp only [Led.rawValue, hm]
    have hper1 : (0 : ℝ) < (st.period : ℝ) - 1 := by
      have : (1 : ℝ) < (st.period : ℝ) := by exact_mod_cast hp
      linarith
    have htmod : ((Int.tmod (now - st.startTime - st.delay + st.phase) st.period : ℤ) : ℝ) =
        ((st.period : ℝ) - 1) / 2 := by
      have h2 : (2 : ℝ) *
          ((Int.tmod (now - st.startTime - st.delay + st.phase) st.period : ℤ) : ℝ) =
          (st.period : ℝ) - 1 := by exact_mod_cast hhalf
      linarith
    rw [htmod]
    rw [show ((st.period : ℝ) - 1) / 2 / ((st.period : ℝ) - 1) = 1 / 2 by
      rw [div_div, mul_comm, ← div_div, div_self (ne_of_gt hper1)]]
    rw [show 2 * Real.pi * ((1 : ℝ) / 2 - 0.5) = 0 by norm_num, Real.cos_zero]
    rw [show ((st.maxBright : ℝ) - (st.minBright : ℝ)) * ((1 + 1) / 2) =
      ((st.maxBright - st.minBright : ℤ) : ℝ) by push_cast; ring]
    rw [cTrunc_intCast]
    omega
  · intro h2Δ hph ht0
    rw [Led.update_lastValue st now r (by omega)]
    unfold Led.updateValue
    rw [Led.smoothValue_of_noblend st _ _ (by omega) h2Δ]
    simp only [Led.rawValue, hm]
    rw [hph, add_zero, ht0]
    rw [Int.cast_zero, zero_div]
    rw [show 2 * Real.pi * ((0 : ℝ) - 0.5) = -Real.pi by norm_num; ring]
    rw [Real.cos_neg, Real.cos_pi]
    rw [show ((st.maxBright : ℝ) - (st.minBright : ℝ)) * ((-1 + 1) / 2) = ((0 : ℤ) : ℝ) by
      push_cast; ring]
    rw [cTrunc_intCast]
    omega
  · intro h2Δ hge0
    unfold Led.updateValue
    rw [show now + st.period - st.startTime - st.delay =
      (now - st.startTime - st.delay) + st.period by ring]
    rw [Led.smoothValue_of_noblend st _ _ (by omega) (by omega)]
    rw [Led.smoothValue_of_noblend st _ _ (by omega) h2Δ]
    simp only [Led.rawValue, hm]
    rw [show now - st.startTime - st.delay + st.period + st.phase =
      (now - st.startTime - st.delay + st.phase) + st.period by ring]
    rw [tmod_add_right_of_nonneg hge0 (by omega)]

/-- C6 witness: on the period-3 sinusoid channel `stSin` at `now = 4`
(elapsed 4, `4 mod 3 = 1` and `2*1 = 3 - 1`), the stored value is exactly
`maxBright`. -/
theorem sinusoid_waveform_points_witness :
    (stSin.mode = LedMode.sinusoid ∧ 1 < stSin.period ∧
      stSin.period ≤ 2 * (4 - stSin.startTime - stSin.delay) ∧
      2 * Int.tmod (4 - stSin.startTime - stSin.delay + stSin.phase) stSin.period =
        stSin.period - 1) ∧
    (Led.update stSin 4 0).1.lastValue = stSin.maxBright :=
  ⟨by decide,
   (sinusoid_waveform_points stSin 4 0 (by decide) (by decide)).1 (by decide) (by decide)⟩

/-- C7 counterexample: the claim says a flicker channel's output only ever
takes values in `[minBright, maxBright)`.  A channel entered from
`lastValue = 40` with `minBright = 64` holds 40 (below `minBright`) at every
non-sampling call, here `elapsed = 30` (`30 mod 29 = 1`). -/
theorem flicker_holds_value_outside_bounds :
    stFlickerLow.mode = LedMode.flicker ∧
    (Led.update stFlickerLow 30 0).1.lastValue = 40 ∧
    ¬ (stFlickerLow.minBright ≤ (Led.update stFlickerLow 30 0).1.lastValue) := by
  have h40 : (Led.update stFlickerLow 30 0).1.lastValue = 40 := by
    rw [Led.update_lastValue stFlickerLow 30 0 (by decide)]
    unfold Led.updateValue
    rw [Led.rawValue_flicker_hold stFlickerLow (30 - stFlickerLow.startTime - stFlickerLow.delay)
      0 rfl (by decide)]
    rw [Led.smoothValue_self]
    decide
  exact ⟨rfl, h40, by rw [h40]; decide⟩

/-- C7 (amended): in flicker mode the stored/emitted output changes only at
calls with `elapsed mod 29 = 0` (all other calls, including those in the
smoothing window and the pre-activation window, leave the channel state
unchanged and write nothing); at a sampling call past the smoothing
window, with `minBright < maxBright` and a nonnegative raw draw, the stored
value lies in `[minBright, maxBright)`.  Between samples the held value can
lie outside `[minBright, maxBright)` (see the counterexample). -/
theorem flicker_step_behavior (st : Led) (now r : ℤ) (hm : st.mode = LedMode.flicker) :
    (Int.tmod (now - st.startTime - st.delay) 29 ≠ 0 →
      Led.update st now r = (st, none)) ∧
    (Int.tmod (now - st.startTime - st.delay) 29 = 0 → 0 < st.period →
      st.period ≤ 2 * (now - st.startTime - st.delay) →
      st.minBright < st.maxBright → 0 ≤ r →
      st.minBright ≤ (Led.update st now r).1.lastValue ∧
        (Led.update st now r).1.lastValue < st.maxBright) := by
  constructor
  · intro ht
    by_cases hneg : now - st.startTime - st.delay < 0
    · exact Led.update_of_delta_neg st now r hneg
    · have hv : Led.updateValue st now r = st.lastValue := by
        unfold Led.updateValue
        rw [Led.rawValue_flicker_hold st _ r hm ht]
        exact Led.smoothValue_self st _
      unfold Led.update
      rw [if_neg hneg, hv]
      simp
  · intro ht hp h2Δ hlt hr
    rw [Led.update_lastValue st now r (by omega)]
    unfold Led.updateValue
    rw [Led.smoothValue_of_noblend st _ _ hp h2Δ]
    rw [Led.rawValue_flicker_sample st _ r hm ht]
    have hs := arduinoRandom2_mem r st.minBright st.maxBright hr
      (le_of_lt hlt)
    exact ⟨hs.1, hs.2.2 hlt⟩

/-- C7 witness: a non-sampling call on the concrete flicker channel
`stFlickerLow` is a complete no-op. -/
theorem flicker_step_behavior_witness :
    stFlickerLow.mode = LedMode.flicker ∧
    Int.tmod (30 - stFlickerLow.startTime - stFlickerLow.delay) 29 ≠ 0 ∧
    Led.update stFlickerLow 30 0 = (stFlickerLow, none) := by
  refine ⟨rfl, by decide, ?_⟩
  exact (flicker_step_behavior stFlickerLow 30 0 rfl).1 (by decide)
